import Mathlib

/-!
Verification development for the nash-stats order poller.

The Rust sources are shallowly embedded below:
* f64 values are represented by their IEEE-754 binary64 bit pattern (a `Nat`
  below `2^64`); a finite value is decoded to an integer multiple of
  `2^(-1074)` so that all comparisons are exact integer comparisons.
* `Order`, its `PartialEq` (tolerance comparison via `abs_diff_eq` with
  `f64::EPSILON`) and its `Hash` (bit patterns of the floats) come from
  `src/main.rs` / `src/fetch.rs`.
* `HashSet` is modelled by a list with membership requiring both hash-input
  equality and `PartialEq` equality, as in Rust's hash-first lookup.
* The JSON envelope handling (`#[serde(untagged)] OrdersResponse`), the
  string-to-f64 field parser, and the polling loop of `main` are embedded as
  total functions.
-/

set_option maxRecDepth 100000

namespace NashStats

/-! ## IEEE-754 binary64, represented by bit patterns -/

/-- Sign bit of a binary64 bit pattern. -/
def signBit (b : Nat) : Nat := b / 2 ^ 63 % 2

/-- Exponent field (11 bits) of a binary64 bit pattern. -/
def expField (b : Nat) : Nat := b / 2 ^ 52 % 2048

/-- Mantissa field (52 bits) of a binary64 bit pattern. -/
def manField (b : Nat) : Nat := b % 2 ^ 52

/-- `true` iff the bit pattern denotes a finite value (not NaN, not an infinity). -/
def isFiniteBits (b : Nat) : Bool := decide (expField b ≠ 2047)

/-- Decode a finite binary64 bit pattern to its value as an integer multiple of
`2^(-1074)`; `none` for NaN and the infinities. -/
def scaledVal (b : Nat) : Option Int :=
  if expField b = 2047 then none
  else
    let mag : Nat :=
      if expField b = 0 then manField b
      else (2 ^ 52 + manField b) * 2 ^ (expField b - 1)
    some (if signBit b = 1 then -(mag : Int) else (mag : Int))

/-- Number of binary digits of `n` (0 for 0), via fuelled recursion. -/
def bitsAux : Nat → Nat → Nat
  | 0, _ => 0
  | fuel + 1, n => if n = 0 then 0 else bitsAux fuel (n / 2) + 1

/-- Number of binary digits of `n`. -/
def natBits (n : Nat) : Nat := bitsAux 100000 n

/-- Round the rational `t / den` to the nearest integer, ties to even. -/
def roundNE (t den : Nat) : Nat :=
  let q := t / den
  let r := t % den
  if 2 * r < den then q
  else if 2 * r > den then q + 1
  else if q % 2 = 0 then q else q + 1

/-- Round a `2^(-1074)`-scaled magnitude to 53 significant bits
(round to nearest, ties to even): the rounding binary64 arithmetic applies to
the exact difference of two finite values. -/
def roundTo53 (n : Nat) : Nat :=
  if n < 2 ^ 53 then n
  else
    let s := natBits n - 53
    roundNE n (2 ^ s) * 2 ^ s

/-- `f64::EPSILON = 2^(-52)` as a `2^(-1074)`-scaled integer. -/
def epsScaled : Nat := 2 ^ 1022

/-- `a.abs_diff_eq(&b, f64::EPSILON)` from the `approx` crate on binary64 bit
patterns: the correctly rounded `|a - b|` compared to `f64::EPSILON`.
Any NaN or infinite operand yields `false`. -/
def absDiffEq (a b : Nat) : Bool :=
  match scaledVal a, scaledVal b with
  | some x, some y => decide (roundTo53 (x - y).natAbs ≤ epsScaled)
  | _, _ => false

/-- Bit pattern of `+0.0` or `-0.0`. -/
def zeroBitsOf (neg : Bool) : Nat := if neg then 2 ^ 63 else 0

/-- Bit pattern of `+inf` / `-inf`. -/
def infBitsOf (neg : Bool) : Nat := (if neg then 2 ^ 63 else 0) + 2047 * 2 ^ 52

/-- Bit pattern of the NaN produced by Rust's `f64` parser (`0x7FF8_0000_0000_0000`,
possibly with the sign bit). -/
def nanBitsOf (neg : Bool) : Nat := (if neg then 2 ^ 63 else 0) + 2047 * 2 ^ 52 + 2 ^ 51

/-- Encode a 53-bit-rounded `2^(-1074)`-scaled magnitude (below the overflow
threshold) as a binary64 bit pattern. -/
def encodeFinite (neg : Bool) (n : Nat) : Nat :=
  if n < 2 ^ 52 then zeroBitsOf neg + n
  else
    let e := natBits n - 52
    zeroBitsOf neg + e * 2 ^ 52 + (n / 2 ^ (e - 1) - 2 ^ 52)

/-- Round the positive rational `t / den` (already `2^1074`-scaled) to the
nearest representable `2^(-1074)`-scaled magnitude, ties to even. -/
def roundRatToScaled (t den : Nat) : Nat :=
  let qf := t / den
  if qf < 2 ^ 53 then roundNE t den
  else
    let s := natBits qf - 53
    roundNE t (den * 2 ^ s) * 2 ^ s

/-- Correctly rounded conversion of `(-1)^neg * n0 * 10^t` (a parsed decimal
with `len` significand digits) to a binary64 bit pattern. -/
def ratToBits (neg : Bool) (n0 : Nat) (t : Int) (len : Nat) : Nat :=
  if n0 = 0 then zeroBitsOf neg
  else if 309 ≤ t then infBitsOf neg
  else if t + (len : Int) < -325 then zeroBitsOf neg
  else
    let p : Nat × Nat := if 0 ≤ t then (n0 * 10 ^ t.toNat, 1) else (n0, 10 ^ (-t).toNat)
    let scaled := roundRatToScaled (p.1 * 2 ^ 1074) p.2
    if 2 ^ 2098 ≤ scaled then infBitsOf neg else encodeFinite neg scaled

/-! ## Rust's `str::parse::<f64>` -/

/-- Value of a decimal digit character. -/
def digitVal (c : Char) : Option Nat :=
  if 48 ≤ c.toNat ∧ c.toNat ≤ 57 then some (c.toNat - 48) else none

/-- Read a run of decimal digits (empty list allowed, caller checks emptiness);
fails on any non-digit. -/
def digitsToNat : List Char → Nat → Option Nat
  | [], acc => some acc
  | c :: rest, acc =>
    match digitVal c with
    | some d => digitsToNat rest (acc * 10 + d)
    | none => none

/-- Split a character list at the first occurrence of `sep`. -/
def splitOn (sep : Char) : List Char → List Char × Option (List Char)
  | [] => ([], none)
  | c :: rest =>
    if c = sep then ([], some rest)
    else
      let p := splitOn sep rest
      (c :: p.1, p.2)

/-- Parse the (lower-cased) exponent part after `e`: optional sign then a
non-empty digit run. -/
def parseExpDigits (cs : List Char) : Option Int :=
  match cs with
  | [] => none
  | '+' :: rest => if rest = [] then none else (digitsToNat rest 0).map (fun n => (n : Int))
  | '-' :: rest => if rest = [] then none else (digitsToNat rest 0).map (fun n => -(n : Int))
  | l => (digitsToNat l 0).map (fun n => (n : Int))

/-- Parse a (lower-cased, sign-stripped) decimal float literal:
`Digits '.'? Digits? Exp?` or `'.' Digits Exp?`, as accepted by Rust's
`f64::from_str`, and convert it with correct rounding. -/
def parseDecimal (neg : Bool) (cs : List Char) : Option Nat :=
  let me := splitOn 'e' cs
  let ifp := splitOn '.' me.1
  let ip := ifp.1
  let fp := match ifp.2 with | some l => l | none => []
  if ip = [] ∧ fp = [] then none
  else
    match digitsToNat (ip ++ fp) 0 with
    | none => none
    | some n0 =>
      match me.2 with
      | none => some (ratToBits neg n0 (-(fp.length : Int)) (ip.length + fp.length))
      | some ecs =>
        match parseExpDigits ecs with
        | none => none
        | some e => some (ratToBits neg n0 (e - (fp.length : Int)) (ip.length + fp.length))

/-- Rust's `str::parse::<f64>()`: optional sign, then case-insensitive
`nan` / `inf` / `infinity` or a decimal literal; `none` on anything else. -/
def parseF64 (s : String) : Option Nat :=
  match s.data with
  | [] => none
  | c :: rest0 =>
    let p : Bool × List Char :=
      if c = '-' then (true, rest0)
      else if c = '+' then (false, rest0)
      else (false, c :: rest0)
    let low := p.2.map Char.toLower
    if low = ['n', 'a', 'n'] then some (nanBitsOf p.1)
    else if low = ['i', 'n', 'f'] then some (infBitsOf p.1)
    else if low = ['i', 'n', 'f', 'i', 'n', 'i', 't', 'y'] then some (infBitsOf p.1)
    else parseDecimal p.1 low

/-! ## The `Order` record (`src/main.rs` / `src/fetch.rs`) -/

/-- `enum OrderType { Buy, Sell }`. -/
inductive OrderType where
  | buy
  | sell
deriving DecidableEq

/-- `struct Order`: the three amount fields hold binary64 bit patterns. -/
structure Order where
  ty : OrderType
  blockchain : String
  crypto_amount : Nat
  crypto_symbol : String
  fiat_amount : Nat
  fiat_price : Nat
  fiat_symbol : String
deriving DecidableEq

/-- `impl PartialEq for Order`: exact equality on `ty` and the strings,
`abs_diff_eq(_, f64::EPSILON)` on the three amounts. -/
def orderEq (a b : Order) : Bool :=
  decide (a.ty = b.ty)
    && decide (a.blockchain = b.blockchain)
    && absDiffEq a.crypto_amount b.crypto_amount
    && decide (a.crypto_symbol = b.crypto_symbol)
    && absDiffEq a.fiat_amount b.fiat_amount
    && absDiffEq a.fiat_price b.fiat_price
    && decide (a.fiat_symbol = b.fiat_symbol)

/-- `f64::to_bits` (the amounts already are bit patterns; `u64` wraps at `2^64`). -/
def toBits (b : Nat) : Nat := b % 2 ^ 64

/-- `impl Hash for Order`: the data fed to the hasher — `ty`, the strings, and
`to_bits` of the three amounts, in source order. -/
def orderHash (o : Order) : OrderType × String × Nat × String × Nat × Nat × String :=
  (o.ty, o.blockchain, toBits o.crypto_amount, o.crypto_symbol,
    toBits o.fiat_amount, toBits o.fiat_price, o.fiat_symbol)

/-- Hash-input equality: two orders feed identical data to the hasher. -/
def hashEq (a b : Order) : Bool :=
  decide (a.ty = b.ty)
    && decide (a.blockchain = b.blockchain)
    && decide (toBits a.crypto_amount = toBits b.crypto_amount)
    && decide (a.crypto_symbol = b.crypto_symbol)
    && decide (toBits a.fiat_amount = toBits b.fiat_amount)
    && decide (toBits a.fiat_price = toBits b.fiat_price)
    && decide (a.fiat_symbol = b.fiat_symbol)

/-- All three amount fields are finite. -/
def isFiniteOrder (o : Order) : Bool :=
  isFiniteBits o.crypto_amount && isFiniteBits o.fiat_amount && isFiniteBits o.fiat_price

/-! ## `HashSet<Order>` -/

/-- `HashSet::contains`: an element is found only in its own hash bucket, so a
hit needs hash-input equality and then `PartialEq` equality. -/
def setContains (s : List Order) (x : Order) : Bool :=
  s.any (fun y => hashEq y x && orderEq y x)

/-- `HashSet::insert`: keep the existing element when one is found. -/
def setInsert (s : List Order) (x : Order) : List Order :=
  if setContains s x then s else s ++ [x]

/-- `LatestOrders::into_set` = `HashSet::from_iter`. -/
def into_set (l : List Order) : List Order := l.foldl setInsert []

/-- `current_orders.difference(&previous_orders)`. -/
def setDifference (current prev : List Order) : List Order :=
  current.filter (fun x => !(setContains prev x))

/-! ## JSON payloads and the fetch pipeline -/

/-- The JSON shapes the deserializer distinguishes. -/
inductive Json where
  | str : String → Json
  | arr : List Json → Json
  | obj : List (String × Json) → Json
  | null : Json

/-- serde field lookup by key (first occurrence). -/
def jsonLookup (key : String) : List (String × Json) → Option Json
  | [] => none
  | (k, v) :: rest => if k = key then some v else jsonLookup key rest

/-- `OrderType` deserialization (`rename_all = "camelCase"`). -/
def parseOrderType : Json → Option OrderType
  | .str "buy" => some .buy
  | .str "sell" => some .sell
  | _ => none

/-- Plain string field. -/
def parseString : Json → Option String
  | .str s => some s
  | _ => none

/-- `from_str_to_f64`, the `deserialize_with` helper: the field must be a JSON
string and parse as an `f64`. -/
def from_str_to_f64 (j : Json) : Option Nat :=
  match j with
  | .str s => parseF64 s
  | _ => none

/-- Deserialize one `Order` (`rename_all = "camelCase"`, `type` renamed). -/
def parseOrder (j : Json) : Option Order :=
  match j with
  | .obj fields => do
    let ty ← jsonLookup "type" fields >>= parseOrderType
    let blockchain ← jsonLookup "blockchain" fields >>= parseString
    let crypto_amount ← jsonLookup "cryptoAmount" fields >>= from_str_to_f64
    let crypto_symbol ← jsonLookup "cryptoSymbol" fields >>= parseString
    let fiat_amount ← jsonLookup "fiatAmount" fields >>= from_str_to_f64
    let fiat_price ← jsonLookup "fiatPrice" fields >>= from_str_to_f64
    let fiat_symbol ← jsonLookup "fiatSymbol" fields >>= parseString
    pure ⟨ty, blockchain, crypto_amount, crypto_symbol, fiat_amount, fiat_price, fiat_symbol⟩
  | _ => none

/-- Deserialize a `Vec<Order>`: every element must parse. -/
def parseOrders : List Json → Option (List Order)
  | [] => some []
  | j :: rest =>
    match parseOrder j with
    | none => none
    | some o =>
      match parseOrders rest with
      | none => none
      | some os => some (o :: os)

/-- The `LatestOrders` success shape: `{ latestOrders: [...] }`. -/
def parseLatestOrders (j : Json) : Option (List Order) :=
  match j with
  | .obj fields =>
    match jsonLookup "latestOrders" fields with
    | some (.arr items) => parseOrders items
    | _ => none
  | _ => none

/-- The `OrdersError` failure shape: `{ message: string }`. -/
def parseMessage (j : Json) : Option String :=
  match j with
  | .obj fields =>
    match jsonLookup "message" fields with
    | some v => parseString v
    | none => none
  | _ => none

/-- Result of one fetch: the deduplicated set, an upstream failure message
(`OrdersError` via `TryFrom`), or a deserialization failure. -/
inductive FetchOut where
  | ok : List Order → FetchOut
  | err : String → FetchOut
  | malformed : FetchOut
deriving DecidableEq

/-- `fetch`: deserialize the untagged `OrdersResponse` (success shape first,
then the failure shape), convert the success payload with `into_set`. -/
def fetch (j : Json) : FetchOut :=
  match parseLatestOrders j with
  | some orders => .ok (into_set orders)
  | none =>
    match parseMessage j with
    | some m => .err m
    | none => .malformed

/-! ## The poller loop (`main`) -/

/-- The loop's mutable state: the `previous_orders` baseline and the rows so far
appended to the store. -/
structure LoopState where
  baseline : List Order
  store : List Order
deriving DecidableEq

/-- Observable output of one loop iteration. -/
structure CycleLog where
  warned : Bool
  newOrders : List Order
  insertFailed : List Order
deriving DecidableEq

/-- One iteration of the `loop` in `main`: on success compute the difference,
emit the warning when every current order is new, attempt to insert each new
order (an insert failure is only logged), replace the baseline; on a fetch
error leave the state unchanged. -/
def cycleStep (st : LoopState) (fr : FetchOut) (insertOk : Order → Bool) :
    LoopState × CycleLog :=
  match fr with
  | .ok current =>
    let newOrders := setDifference current st.baseline
    let warned := newOrders.length == current.length
    ({ baseline := current, store := st.store ++ newOrders.filter insertOk },
      { warned := warned, newOrders := newOrders,
        insertFailed := newOrders.filter (fun o => !(insertOk o)) })
  | _ => (st, { warned := false, newOrders := [], insertFailed := [] })

/-- Bootstrapping in `main`: the baseline is the result of an initial `fetch`;
any failure aborts the process (`?`). -/
def startup (boot : Json) : Option (List Order) :=
  match fetch boot with
  | .ok s => some s
  | _ => none

/-! ## The store (`src/db.rs`) -/

/-- Insertion sort, newest (largest `created_at`) first. -/
def insertDesc (p : Nat × Order) : List (Nat × Order) → List (Nat × Order)
  | [] => [p]
  | q :: rest => if q.1 ≤ p.1 then p :: q :: rest else q :: insertDesc p rest

/-- Sort rows by `created_at` descending. -/
def sortDesc (l : List (Nat × Order)) : List (Nat × Order) := l.foldr insertDesc []

/-- `get_latest_orders`: `SELECT ... FROM orders ORDER BY created_at DESC LIMIT 10`
over the persisted rows (`created_at` modelled as a `Nat` timestamp). -/
def get_latest_orders (rows : List (Nat × Order)) : List Order :=
  ((sortDesc rows).take 10).map (fun p => p.2)

/-! ## Command-line arguments (`src/args.rs`) -/

/-- `struct Args`: persistence path and fetch interval (seconds). -/
structure Args where
  persist_path : String
  fetch_interval : Nat

/-- `default_value_t = 2` for `fetch_interval`. -/
def defaultFetchInterval : Nat := 2

/-- The sleep at the end of each loop iteration:
`sleep(Duration::from_millis(2000))` — the literal 2000 ms, taking the parsed
arguments and ignoring them as the source does. -/
def cycleSleepMillis (_a : Args) : Nat := 2000

/-! ## Concrete bit patterns and orders -/

/-- Bits of `1.0`. -/
def bits1 : Nat := 4607182418800017408

/-- Bits of the successor of `1.0` (`1.0 + 2^(-52)`). -/
def bits1ulp : Nat := 4607182418800017409

/-- Bits of `2.0`. -/
def bits2 : Nat := 4611686018427387904

/-- Bits of the successor of `2.0` (`2.0 + 2^(-51)`). -/
def bits2ulp : Nat := 4611686018427387905

/-- Bits of the NaN returned by parsing `"NaN"`. -/
def bitsNaN : Nat := 9221120237041090560

/-- A buy order on a given symbol with the given crypto-amount bits; the fiat
amount and price are `1.0`. -/
def mkOrder (sym : String) (cb : Nat) : Order :=
  ⟨.buy, "bitcoin", cb, sym, bits1, bits1, "USD"⟩

def ordA : Order := mkOrder "BTC" bits1
def ordB : Order := mkOrder "ETH" bits1
def ordC : Order := mkOrder "SOL" bits1
def ordD : Order := mkOrder "DOT" bits1

/-- Tolerance-equal neighbour of `ordA` with a different bit pattern. -/
def ordA1 : Order := mkOrder "BTC" bits1ulp

/-- Order with all three amounts `2.0`. -/
def ordTwo : Order := ⟨.buy, "bitcoin", bits2, "BTC", bits2, bits2, "USD"⟩

/-- Same as `ordTwo` with each amount bumped by one last-place bit. -/
def ordTwoNext : Order := ⟨.buy, "bitcoin", bits2ulp, "BTC", bits2ulp, bits2ulp, "USD"⟩

/-- JSON for an order of 1 unit of `sym` at price 1. -/
def orderJson (sym : String) : Json :=
  Json.obj [("type", Json.str "buy"), ("blockchain", Json.str "bitcoin"),
    ("cryptoAmount", Json.str "1"), ("cryptoSymbol", Json.str sym),
    ("fiatAmount", Json.str "1"), ("fiatPrice", Json.str "1"),
    ("fiatSymbol", Json.str "USD")]

/-- Success payload with one BTC order. -/
def payload1 : Json := Json.obj [("latestOrders", Json.arr [orderJson "BTC"])]

/-- Success payload with an empty order list. -/
def payloadEmpty : Json := Json.obj [("latestOrders", Json.arr [])]

/-- JSON order record whose `cryptoAmount` is the string `"NaN"`. -/
def orderJsonNaN (sym : String) : Json :=
  Json.obj [("type", Json.str "buy"), ("blockchain", Json.str "bitcoin"),
    ("cryptoAmount", Json.str "NaN"), ("cryptoSymbol", Json.str sym),
    ("fiatAmount", Json.str "1"), ("fiatPrice", Json.str "1"),
    ("fiatSymbol", Json.str "USD")]

/-- The `Order` that `orderJsonNaN "BTC"` deserializes to. -/
def ordNaN : Order := ⟨.buy, "bitcoin", bitsNaN, "BTC", bits1, bits1, "USD"⟩

/-- Success payload containing the NaN-amount BTC order. -/
def payloadNaN : Json := Json.obj [("latestOrders", Json.arr [orderJsonNaN "BTC"])]

/-- The `Order` that `orderJsonNaN "ETH"` deserializes to. -/
def ordNaN6 : Order := ⟨.buy, "bitcoin", bitsNaN, "ETH", bits1, bits1, "USD"⟩

/-- Success payload containing the NaN-amount ETH order. -/
def payloadNaN6 : Json := Json.obj [("latestOrders", Json.arr [orderJsonNaN "ETH"])]

/-- A persisted store with one row. -/
def storeRows1 : List (Nat × Order) := [(5, ordA)]

end NashStats

set_option exponentiation.threshold 5000

namespace NashStats

/-! ## Helper lemmas -/

/-- `abs_diff_eq` is reflexive on finite values. -/
theorem absDiffEq_self (b : Nat) (h : isFiniteBits b = true) : absDiffEq b b = true := by
  have h2 : ¬(expField b = 2047) := by simpa [isFiniteBits] using h
  simp only [absDiffEq, scaledVal, if_neg h2, Int.sub_self, Int.natAbs_zero]
  decide

/-- `PartialEq` is reflexive on orders with finite amounts. -/
theorem orderEq_refl (o : Order) (h : isFiniteOrder o = true) : orderEq o o = true := by
  simp only [isFiniteOrder, Bool.and_eq_true] at h
  simp [orderEq, absDiffEq_self _ h.1.1, absDiffEq_self _ h.1.2, absDiffEq_self _ h.2]

/-- Every element feeds the same data to the hasher as itself. -/
theorem hashEq_refl (o : Order) : hashEq o o = true := by
  simp [hashEq]

/-- A finite-amount order that is in the list is found by `HashSet::contains`. -/
theorem setContains_self (l : List Order) (x : Order) (hm : x ∈ l)
    (hf : isFiniteOrder x = true) : setContains l x = true := by
  simp only [setContains, List.any_eq_true]
  exact ⟨x, hm, by simp [hashEq_refl, orderEq_refl x hf]⟩

/-- Differencing a set of finite-amount orders with itself is empty. -/
theorem setDifference_self (l : List Order) (hf : ∀ o ∈ l, isFiniteOrder o = true) :
    setDifference l l = [] := by
  simp only [setDifference, List.filter_eq_nil_iff]
  intro a ha
  simp [setContains_self l a ha (hf a ha)]

/-! ## Claims -/

/-- C1 (amended): at startup the program initializes the Store but seeds the
`previous_orders` baseline from an initial upstream `fetch`, not from
`get_latest_orders`; consequently, when the bootstrap fetch succeeds and all
fetched amounts are finite, the next poll against an unchanged upstream set
yields zero new records and leaves the baseline equal to the fetched set. -/
theorem c1_theorem (boot : Json) (s : List Order) (f : Order → Bool)
    (h : fetch boot = FetchOut.ok s) (hf : ∀ o ∈ s, isFiniteOrder o = true) :
    startup boot = some s ∧
    (cycleStep ⟨s, []⟩ (fetch boot) f).2.newOrders = [] ∧
    (cycleStep ⟨s, []⟩ (fetch boot) f).1.baseline = s := by
  refine ⟨by simp [startup, h], ?_, ?_⟩ <;>
    simp [h, cycleStep, setDifference_self s hf]

/-- Witness for C1 at a concrete bootstrap payload with one BTC order. -/
theorem c1_witness :
    startup payload1 = some [ordA] ∧
    (cycleStep ⟨[ordA], []⟩ (fetch payload1) (fun _ => true)).2.newOrders = [] ∧
    (cycleStep ⟨[ordA], []⟩ (fetch payload1) (fun _ => true)).1.baseline = [ordA] :=
  c1_theorem payload1 [ordA] (fun _ => true) (by decide) (by decide)

/-- C1 counterexample: with one persisted row and an upstream currently serving
an empty list, the baseline the program actually starts with (the fetch result,
`[]`) differs from what `get_latest_orders` returns (`[ordA]`) — the claim that
the baseline is seeded by `loadRecent` is false on this input. -/
theorem c1_counterexample :
    ¬(startup payloadEmpty = some (get_latest_orders storeRows1)) := by decide

/-- Modelled from the spec: a set difference "using the equality semantics of
paragraph 4.1 (tolerance equality on amounts)" alone, i.e. an element of
`current` is dropped iff some baseline element is `PartialEq`-equal to it,
with no hash-bucket (bit-pattern) requirement. For comparison with the
source's `setDifference`. -/
def specDifference (current prev : List Order) : List Order :=
  current.filter (fun x => !(prev.any (fun y => orderEq y x)))

/-- C2 counterexample: `ordA1` is tolerance-equal to `ordA` but has a different
bit pattern; the tolerance-only set difference of the claim would be empty, yet
the loop reports `ordA1` as new. -/
theorem c2_counterexample :
    orderEq ordA ordA1 = true ∧
    specDifference [ordA1] [ordA] = [] ∧
    (cycleStep ⟨[ordA], []⟩ (FetchOut.ok [ordA1]) (fun _ => true)).2.newOrders = [ordA1] := by
  decide

/-- C2 (amended): the new records of a successful cycle are exactly the current
records with no baseline element in the same hash bucket (equal float bit
patterns) that also compares `PartialEq`-equal; in particular for baseline
`{A,B}` and current `{A,B,C}` with bit-identical copies of `A`, `B`, the
new-set is exactly `{C}`. -/
theorem c2_theorem :
    (∀ st cur f, (cycleStep st (FetchOut.ok cur) f).2.newOrders
        = cur.filter (fun x => !(setContains st.baseline x))) ∧
    (cycleStep ⟨into_set [ordA, ordB], []⟩
        (FetchOut.ok (into_set [ordA, ordB, ordC])) (fun _ => true)).2.newOrders = [ordC] :=
  ⟨fun _ _ _ => rfl, by decide⟩

/-- C3 counterexample: two orders with identical kind and string fields whose
three amounts each differ only in the last representable bit (at value `2.0`),
yet the comparison function reports them unequal — a last-place difference is
not within `f64::EPSILON` once the magnitude reaches `2.0`. -/
theorem c3_counterexample :
    ordTwo.ty = ordTwoNext.ty ∧ ordTwo.blockchain = ordTwoNext.blockchain ∧
    ordTwo.crypto_symbol = ordTwoNext.crypto_symbol ∧
    ordTwo.fiat_symbol = ordTwoNext.fiat_symbol ∧
    ordTwoNext.crypto_amount = ordTwo.crypto_amount + 1 ∧
    ordTwoNext.fiat_amount = ordTwo.fiat_amount + 1 ∧
    ordTwoNext.fiat_price = ordTwo.fiat_price + 1 ∧
    orderEq ordTwo ordTwoNext = false := by decide

/-- C3 (amended): for records with identical kind and string fields, equality
holds iff each of the three amounts passes `abs_diff_eq` (the correctly rounded
absolute difference is at most `f64::EPSILON`); whenever the rounded absolute
difference of some amount pair exceeds epsilon the records are not equal. A
last-representable-bit difference yields equality at magnitude `1.0` but not at
`2.0`. -/
theorem c3_theorem :
    (∀ a b : Order, a.ty = b.ty → a.blockchain = b.blockchain →
        a.crypto_symbol = b.crypto_symbol → a.fiat_symbol = b.fiat_symbol →
        (orderEq a b = true ↔
          (absDiffEq a.crypto_amount b.crypto_amount = true ∧
           absDiffEq a.fiat_amount b.fiat_amount = true ∧
           absDiffEq a.fiat_price b.fiat_price = true))) ∧
    (∀ x y : Nat, ∀ vx vy : Int, scaledVal x = some vx → scaledVal y = some vy →
        epsScaled < roundTo53 (vx - vy).natAbs → absDiffEq x y = false) ∧
    orderEq ordA ordA1 = true ∧
    orderEq ordTwo ordTwoNext = false := by
  refine ⟨?_, ?_, by decide, by decide⟩
  · intro a b h1 h2 h3 h4
    simp [orderEq, h1, h2, h3, h4, Bool.and_eq_true, and_assoc]
  · intro x y vx vy hx hy hlt
    simp only [absDiffEq, hx, hy, decide_eq_false_iff_not]
    omega

/-- Witness for C3: the characterization applied to the tolerance-equal pair at
`1.0`, and the strict-excess part applied to the last-bit pair at `2.0`. -/
theorem c3_witness :
    (orderEq ordA ordA1 = true ↔
      (absDiffEq ordA.crypto_amount ordA1.crypto_amount = true ∧
       absDiffEq ordA.fiat_amount ordA1.fiat_amount = true ∧
       absDiffEq ordA.fiat_price ordA1.fiat_price = true)) ∧
    absDiffEq bits2 bits2ulp = false :=
  ⟨c3_theorem.1 ordA ordA1 rfl rfl rfl rfl,
   c3_theorem.2.1 bits2 bits2ulp
     404804506614621236704990693437834614099113299528284236713802716054860679135990693783920767402874248990374155728633623822779617474771586953734026799881477019843034848553132722728933815484186432682479535356945490137124014966849385397236206711298319112681620113024717539104666829230461005064372655017292012526615415482186989568
     404804506614621326589647436553630000564372838979520917612651663170189315851031272650258670153355815344612816932401634382836557410468265783128911207089788266266750168290194911612880527916929070833589335979992549863665491009352269816311547882529759849638175383438336120779922171523610125037995624257150164944293580294299058176
     (by decide) (by decide) (by decide)⟩

/-- C4: the data fed to the hasher coincides exactly when kind, the strings and
the `to_bits` images of the three amounts coincide; and there are two records
(`1.0` versus `1.0 + 2^(-52)`) that are equal under the tolerance comparison
yet feed different data to the hasher. -/
theorem c4_theorem :
    (∀ a b : Order, orderHash a = orderHash b ↔
      (a.ty = b.ty ∧ a.blockchain = b.blockchain ∧
       toBits a.crypto_amount = toBits b.crypto_amount ∧
       a.crypto_symbol = b.crypto_symbol ∧
       toBits a.fiat_amount = toBits b.fiat_amount ∧
       toBits a.fiat_price = toBits b.fiat_price ∧
       a.fiat_symbol = b.fiat_symbol)) ∧
    (orderEq ordA ordA1 = true ∧ orderHash ordA ≠ orderHash ordA1) := by
  refine ⟨fun a b => ?_, by decide⟩
  simp [orderHash, Prod.ext_iff]

/-- C5: a loop iteration warns exactly when the fetch succeeded and the new-set
has the same size as the current set (fetch errors never warn; the bootstrap
fetch is the first successful cycle and emits no cycle output at all); with
disjoint baseline `{A,B}` and current `{C,D}` the warning fires, with baseline
`{A,B}` and current `{A,C}` it does not. -/
theorem c5_theorem :
    (∀ st e f, (cycleStep st (FetchOut.err e) f).2.warned = false) ∧
    (∀ st f, (cycleStep st FetchOut.malformed f).2.warned = false) ∧
    (∀ st cur f, ((cycleStep st (FetchOut.ok cur) f).2.warned = true ↔
        (setDifference cur st.baseline).length = cur.length)) ∧
    (cycleStep ⟨into_set [ordA, ordB], []⟩
        (FetchOut.ok (into_set [ordC, ordD])) (fun _ => true)).2.warned = true ∧
    (cycleStep ⟨into_set [ordA, ordB], []⟩
        (FetchOut.ok (into_set [ordA, ordC])) (fun _ => true)).2.warned = false := by
  refine ⟨fun _ _ _ => rfl, fun _ _ => rfl, fun st cur f => ?_, by decide, by decide⟩
  simp [cycleStep]

/-- C6 (amended): a record whose `cryptoAmount` string does not parse as an
`f64` makes the whole fetch cycle fail — no record of the batch is ingested;
but non-finite strings such as `"NaN"` do parse, so they do not fail the
fetch. -/
theorem c6_theorem (fields : List (String × Json)) (s : String)
    (pre post : List Json) (r : List Order)
    (hlook : jsonLookup "cryptoAmount" fields = some (Json.str s))
    (hbad : parseF64 s = none) :
    fetch (Json.obj [("latestOrders", Json.arr (pre ++ Json.obj fields :: post))])
      ≠ FetchOut.ok r := by
  have hord : parseOrder (Json.obj fields) = none := by
    cases hty : jsonLookup "type" fields >>= parseOrderType with
    | none => simp [parseOrder, hty]
    | some ty =>
      cases hbc : jsonLookup "blockchain" fields >>= parseString with
      | none => simp [parseOrder, hty, hbc]
      | some bc => simp [parseOrder, hty, hbc, hlook, from_str_to_f64, hbad]
  have hords : ∀ pre1 : List Json, parseOrders (pre1 ++ Json.obj fields :: post) = none := by
    intro pre1
    induction pre1 with
    | nil => simp [parseOrders, hord]
    | cons j rest ih =>
      simp only [List.cons_append, parseOrders]
      cases parseOrder j <;> simp [ih]
  simp [fetch, parseLatestOrders, jsonLookup, parseMessage, hords pre]

/-- Witness for C6 at the concrete non-numeric amount string `"abc"`. -/
theorem c6_witness :
    fetch (Json.obj [("latestOrders", Json.arr [Json.obj
      [("type", Json.str "buy"), ("blockchain", Json.str "bitcoin"),
       ("cryptoAmount", Json.str "abc"), ("cryptoSymbol", Json.str "BTC"),
       ("fiatAmount", Json.str "1"), ("fiatPrice", Json.str "1"),
       ("fiatSymbol", Json.str "USD")]])]) ≠ FetchOut.ok [] :=
  c6_theorem
    [("type", Json.str "buy"), ("blockchain", Json.str "bitcoin"),
     ("cryptoAmount", Json.str "abc"), ("cryptoSymbol", Json.str "BTC"),
     ("fiatAmount", Json.str "1"), ("fiatPrice", Json.str "1"),
     ("fiatSymbol", Json.str "USD")]
    "abc" [] [] [] rfl (by decide)

/-- C6 counterexample: a payload whose `cryptoAmount` is the string `"NaN"` is
not rejected — the fetch succeeds and the NaN-amount record is ingested,
contradicting the claim that non-finite values fail the cycle. -/
theorem c6_counterexample : fetch payloadNaN6 = FetchOut.ok [ordNaN6] := by decide

/-- C7: the failure-shaped upstream response `{message: m}` produces a fetch
error carrying exactly `m`, and an error cycle leaves the loop state (baseline
and store) unchanged. -/
theorem c7_theorem :
    (∀ m, fetch (Json.obj [("message", Json.str m)]) = FetchOut.err m) ∧
    (∀ st e f, (cycleStep st (FetchOut.err e) f).1 = st) ∧
    (∀ st f, (cycleStep st FetchOut.malformed f).1 = st) :=
  ⟨fun _ => rfl, fun _ _ _ => rfl, fun _ _ => rfl⟩

/-- C8: whatever subset of inserts fails, a successful cycle still logs every
new record, records the failures, appends exactly the successful inserts, and
replaces the baseline with the current set; concretely, when the first of two
new orders fails to insert, the second is still persisted and the baseline is
still replaced. -/
theorem c8_theorem :
    (∀ st cur f,
      (cycleStep st (FetchOut.ok cur) f).1.baseline = cur ∧
      (cycleStep st (FetchOut.ok cur) f).2.newOrders = setDifference cur st.baseline ∧
      (cycleStep st (FetchOut.ok cur) f).1.store
        = st.store ++ (setDifference cur st.baseline).filter f ∧
      (cycleStep st (FetchOut.ok cur) f).2.insertFailed
        = (setDifference cur st.baseline).filter (fun o => !(f o))) ∧
    ((cycleStep ⟨[], []⟩ (FetchOut.ok (into_set [ordA, ordB]))
        (fun o => !(decide (o.crypto_symbol = "BTC")))).2.newOrders = [ordA, ordB] ∧
     (cycleStep ⟨[], []⟩ (FetchOut.ok (into_set [ordA, ordB]))
        (fun o => !(decide (o.crypto_symbol = "BTC")))).2.insertFailed = [ordA] ∧
     (cycleStep ⟨[], []⟩ (FetchOut.ok (into_set [ordA, ordB]))
        (fun o => !(decide (o.crypto_symbol = "BTC")))).1.store = [ordB] ∧
     (cycleStep ⟨[], []⟩ (FetchOut.ok (into_set [ordA, ordB]))
        (fun o => !(decide (o.crypto_symbol = "BTC")))).1.baseline = [ordA, ordB]) :=
  ⟨fun _ _ _ => ⟨rfl, rfl, rfl, rfl⟩, by decide⟩

/-- C9: the loop always sleeps 2000 ms, whatever `fetch_interval` was parsed;
this equals the configured interval only at the default of 2 seconds, and
differs from it for any other configured value (e.g. 5 seconds). -/
theorem c9_theorem :
    (∀ a : Args, cycleSleepMillis a = 2000) ∧
    cycleSleepMillis ⟨"orders.db", defaultFetchInterval⟩ = defaultFetchInterval * 1000 ∧
    cycleSleepMillis ⟨"orders.db", 5⟩ ≠ 5 * 1000 :=
  ⟨fun _ => rfl, rfl, by decide⟩

/-- C10: the string `"NaN"` parses successfully to a NaN bit pattern, a payload
carrying it deserializes to an order with a NaN amount, that order is not equal
to itself under the comparison function, and it is not found by set membership
even in the singleton set containing it. -/
theorem c10_theorem :
    parseF64 "NaN" = some bitsNaN ∧
    fetch payloadNaN = FetchOut.ok [ordNaN] ∧
    orderEq ordNaN ordNaN = false ∧
    setContains (into_set [ordNaN]) ordNaN = false := by decide

end NashStats
